import Mathlib

/-!
Shallow embedding of the Scrabble rules engine (Go sources) used to check the
natural-language specification against the code.  Go strings are modelled as
`List Char` (the labels involved are pure ASCII, where Go's byte indexing,
`strings.ToUpper` and `strings.TrimSpace` agree with the per-character model);
Go `int` is modelled as `Int`, byte arithmetic as arithmetic modulo 256.
-/

namespace Scrabble

/-- Premium square kinds, from the Go `PremiumType` enumeration. -/
inductive PremiumType where
  | Normal
  | DoubleLetterScore
  | TripleLetterScore
  | DoubleWordScore
  | TripleWordScore
deriving DecidableEq

/-- A letter tile: Go `Tile` struct (rune `Letter` — `Char.ofNat 0` encodes the
Go zero rune used for blanks —, int `Points`, bool `IsBlank`). -/
structure Tile where
  letter : Char
  points : Int
  isBlank : Bool
deriving DecidableEq

/-- A board coordinate, from the Go `Position` struct: zero-based `Row`, `Col`,
both Go `int` (so possibly negative or over 14). -/
structure Position where
  row : Int
  col : Int
deriving DecidableEq

/-- Go `Position.IsValid`: both coordinates in `[0, 15)`. -/
def Position.IsValid (p : Position) : Bool :=
  decide (0 ≤ p.row) && decide (p.row < 15) && decide (0 ≤ p.col) && decide (p.col < 15)

/-- Digit accumulator for `decChars`; the first argument is structural fuel. -/
def decCharsCore : Nat → Nat → List Char → List Char
  | 0, _, acc => acc
  | fuel + 1, n, acc =>
    let d := Char.ofNat (48 + n % 10)
    if n < 10 then d :: acc else decCharsCore fuel (n / 10) (d :: acc)

/-- Decimal digits of a natural number, most significant first: the result of
Go's `fmt.Sprintf("%d", n)` for non-negative `n`. -/
def decChars (n : Nat) : List Char :=
  decCharsCore (n + 1) n []

deriving instance DecidableEq for Except

/-- Go `Position.String`: column letter (`'A' + Col`) followed by the decimal
rendering of `Row + 1`; `"INVALID"` on an out-of-bounds position. -/
def Position.String (p : Position) : List Char :=
  if p.IsValid then Char.ofNat (65 + p.col.toNat) :: decChars (p.row + 1).toNat
  else [ 'I', 'N', 'V', 'A', 'L', 'I', 'D' ]

/-- Go byte subtraction `a - b` on ASCII characters (wraps modulo 256). -/
def byteSub (a b : Char) : Nat :=
  (a.toNat % 256 + 256 - b.toNat % 256) % 256

/-- Model of Go `strings.TrimSpace` on ASCII text. -/
def goTrimSpace (s : List Char) : List Char :=
  ((s.dropWhile Char.isWhitespace).reverse.dropWhile Char.isWhitespace).reverse

/-- Model of Go `strings.ToUpper` on ASCII text. -/
def goToUpper (s : List Char) : List Char :=
  s.map Char.toUpper

/-- Go `NewPositionFromString`: parse a label such as `"H8"` into a `Position`.
Mirrors the source's control flow: trim and upcase, length must be 2 or 3,
column from `s[0] - 'A'`, row from `s[1]` (two-character label) or from
`'1'`-prefixed `s[1]s[2]` (three-character label), row range checked last. -/
def NewPositionFromString (s0 : List Char) : Except (List Char) Position :=
  let s := goToUpper (goTrimSpace s0)
  if s.length < 2 || 3 < s.length then .error [ 'f', 'm', 't' ]
  else
    let col : Int := Int.ofNat (byteSub (s.getD 0 ' ') 'A')
    if col < 0 || 14 < col then .error [ 'c', 'o', 'l' ]
    else
      let rowE : Except (List Char) Int :=
        if s.length = 2 then .ok (Int.ofNat (byteSub (s.getD 1 ' ') '0'))
        else if s.getD 1 ' ' ≠ '1' then .error [ 'r', 'o', 'w' ]
        else .ok (10 + Int.ofNat (byteSub (s.getD 2 ' ') '0'))
      match rowE with
      | .error e => .error e
      | .ok row =>
        if row < 1 || 15 < row then .error [ 'r', 'o', 'w' ]
        else .ok { row := row - 1, col := col }

/-- A board square: Go `Square` struct (optional tile — Go stores a `*Tile`,
`nil` modelled as `none` —, premium type, occupancy flag). -/
structure Square where
  tile : Option Tile
  premium : PremiumType
  occupied : Bool
deriving DecidableEq

/-- Go `Square.IsEmpty`: no tile pointer or not occupied. -/
def Square.IsEmpty (s : Square) : Bool :=
  decide (s.tile = none) || !s.occupied

/-- The Go 15×15 `Grid` array is modelled as a function from coordinates to
squares; every access in the source is guarded by a bounds check, so only the
in-bounds part of the function is ever observed. -/
structure Board where
  grid : Position → Square
  center : Position

/-- Go zero-value square as initialized by `NewBoard`'s first loop. -/
def emptySquare : Square :=
  { tile := none, premium := .Normal, occupied := false }

/-- Assignment to `Grid[p.Row][p.Col]` modelled as a function override. -/
def updateSquare (b : Board) (p : Position) (f : Square → Square) : Board :=
  { b with grid := fun q => if q = p then f (b.grid q) else b.grid q }

/-- One iteration of the premium-layout loops in the Go
`initializePremiumSquares`: parse the label (the Go code discards the error,
leaving the zero `Position` if parsing failed) and set that square's premium. -/
def setPremiumAtLabel (pt : PremiumType) (b : Board) (s : List Char) : Board :=
  let pos := match NewPositionFromString s with
    | .ok p => p
    | .error _ => { row := 0, col := 0 }
  updateSquare b pos (fun sq => { sq with premium := pt })

/-- Triple-word labels from the Go source. -/
def twsLabels : List (List Char) :=
  [ "A1", "A8", "A15", "H1", "H15", "O1", "O8", "O15" ].map String.data

/-- Double-word labels from the Go source (center star included). -/
def dwsLabels : List (List Char) :=
  [ "B2", "C3", "D4", "E5", "H8", "K5", "L4", "M3", "N2",
    "B14", "C13", "D12", "E11", "K11", "L12", "M13", "N14" ].map String.data

/-- Triple-letter labels from the Go source. -/
def tlsLabels : List (List Char) :=
  [ "B6", "B10", "F2", "F6", "F10", "F14", "J2", "J6", "J10", "J14", "N6", "N10" ].map String.data

/-- Double-letter labels from the Go source. -/
def dlsLabels : List (List Char) :=
  [ "A4", "A12", "C7", "C9", "D1", "D8", "D15", "G3", "G7", "G9", "G13",
    "H4", "H12", "I3", "I7", "I9", "I13", "L1", "L8", "L15", "M7", "M9", "O4", "O12" ].map String.data

/-- Go `initializePremiumSquares`: the four label loops, in source order. -/
def initPremiumSquares (b : Board) : Board :=
  let b1 := twsLabels.foldl (setPremiumAtLabel .TripleWordScore) b
  let b2 := dwsLabels.foldl (setPremiumAtLabel .DoubleWordScore) b1
  let b3 := tlsLabels.foldl (setPremiumAtLabel .TripleLetterScore) b2
  dlsLabels.foldl (setPremiumAtLabel .DoubleLetterScore) b3

/-- Go `NewBoard`: all squares normal and unoccupied, center at (7,7), then the
premium layout applied. -/
def NewBoard : Board :=
  initPremiumSquares { grid := fun _ => emptySquare, center := { row := 7, col := 7 } }

/-- Go `Board.IsValidPosition` (delegates to `Position.IsValid`). -/
def Board.IsValidPosition (_ : Board) (pos : Position) : Bool :=
  pos.IsValid

/-- How many of the 225 grid squares carry the given premium type; the Go
`ValidateBoard` and `CountPremiumSquares` compute this per type with a map. -/
def countPremium (b : Board) (pt : PremiumType) : Nat :=
  ((List.range 15).map (fun r =>
    ((List.range 15).filter (fun c =>
      decide ((b.grid { row := Int.ofNat r, col := Int.ofNat c }).premium = pt))).length)).sum

/-- Go `Board.ValidateBoard`: center coordinates, the five premium counts
(225 = 164 normal + 61 premium squares), and the center's premium type.  The Go
code iterates its `expectedCounts` map in unspecified order; only whether the
result is `nil` (here `none`) is order-independent, and that is all the
specification claims use. -/
def Board.ValidateBoard (b : Board) : Option (List Char) :=
  if b.center.row ≠ 7 || b.center.col ≠ 7 then some [ 'c', 't', 'r' ]
  else if countPremium b .Normal ≠ 164 then some [ 'N', 'O' ]
  else if countPremium b .DoubleLetterScore ≠ 24 then some [ 'D', 'L' ]
  else if countPremium b .TripleLetterScore ≠ 12 then some [ 'T', 'L' ]
  else if countPremium b .DoubleWordScore ≠ 17 then some [ 'D', 'W' ]
  else if countPremium b .TripleWordScore ≠ 8 then some [ 'T', 'W' ]
  else if (b.grid b.center).premium ≠ .DoubleWordScore then some [ 'c', 's' ]
  else none

/-- Go `Board.PlaceTile`.  The Go method mutates its receiver and returns an
error; the embedding returns the post-state paired with the optional error
message.  Both checks precede the mutation in the source, so the board
component equals the input whenever the error component is `some`. -/
def Board.PlaceTile (b : Board) (tile : Tile) (pos : Position) : Board × Option (List Char) :=
  if !(b.IsValidPosition pos) then (b, some [ 'p', 'o', 's' ])
  else if (b.grid pos).occupied then (b, some [ 'o', 'c', 'c' ])
  else (updateSquare b pos (fun sq => { sq with tile := some tile, occupied := true }), none)

/-- Go `Board.GetTile`: `nil` on out-of-bounds or unoccupied squares. -/
def Board.GetTile (b : Board) (pos : Position) : Option Tile :=
  if !(b.IsValidPosition pos) then none
  else if !(b.grid pos).occupied then none
  else (b.grid pos).tile

/-- Go `Board.GetSquare`: `nil` (here `none`) on out-of-bounds positions. -/
def Board.GetSquare (b : Board) (pos : Position) : Option Square :=
  if !(b.IsValidPosition pos) then none
  else some (b.grid pos)

/-- Go `Board.RemoveTile`: post-state paired with the returned `(*Tile, error)`
(the tile pointer itself may be `nil`, hence `Option Tile` inside `Except`). -/
def Board.RemoveTile (b : Board) (pos : Position) : Board × Except (List Char) (Option Tile) :=
  if !(b.IsValidPosition pos) then (b, .error [ 'p', 'o', 's' ])
  else if !(b.grid pos).occupied then (b, .error [ 'n', 'o' ])
  else (updateSquare b pos (fun sq => { sq with tile := none, occupied := false }),
        .ok (b.grid pos).tile)

/-- Go `Board.IsEmpty`: `false` on out-of-bounds positions. -/
def Board.IsEmpty (b : Board) (pos : Position) : Bool :=
  if !(b.IsValidPosition pos) then false
  else (b.grid pos).IsEmpty

/-- The four direction offsets of Go `Board.GetAdjacentPositions`. -/
def adjacentDirections : List Position :=
  [ { row := -1, col := 0 }, { row := 1, col := 0 },
    { row := 0, col := -1 }, { row := 0, col := 1 } ]

/-- Go `Board.GetAdjacentPositions`: `nil` (modelled `none`) on out-of-bounds
input, otherwise the in-bounds neighbours in direction order. -/
def Board.GetAdjacentPositions (b : Board) (pos : Position) : Option (List Position) :=
  if !(b.IsValidPosition pos) then none
  else some (adjacentDirections.foldl (fun acc dir =>
    let newPos : Position := { row := pos.row + dir.row, col := pos.col + dir.col }
    if b.IsValidPosition newPos then acc ++ [newPos] else acc) [])

/-- Go `Board.GetPremiumType`: `Normal` on out-of-bounds positions. -/
def Board.GetPremiumType (b : Board) (pos : Position) : PremiumType :=
  if !(b.IsValidPosition pos) then .Normal
  else (b.grid pos).premium

/-- Go `Board.HasTileAt`: `false` on out-of-bounds positions. -/
def Board.HasTileAt (b : Board) (pos : Position) : Bool :=
  if !(b.IsValidPosition pos) then false
  else (b.grid pos).occupied

/-- The Go `standardTileDistribution` map, as an association list in
alphabetical key order (quantity, points per letter).  The Go map's iteration
order is unspecified; every property proved below is invariant under the order
in which the entries are visited. -/
def standardTileDistribution : List (Char × Nat × Int) :=
  [ ('A', 9, 1), ('B', 2, 3), ('C', 2, 3), ('D', 4, 2), ('E', 12, 1),
    ('F', 2, 4), ('G', 3, 2), ('H', 2, 4), ('I', 9, 1), ('J', 1, 8),
    ('K', 1, 5), ('L', 4, 1), ('M', 2, 3), ('N', 6, 1), ('O', 8, 1),
    ('P', 2, 3), ('Q', 1, 10), ('R', 6, 1), ('S', 4, 1), ('T', 6, 1),
    ('U', 4, 1), ('V', 2, 4), ('W', 2, 4), ('X', 1, 8), ('Y', 2, 4),
    ('Z', 1, 10) ]

/-- Go `blankTileCount`. -/
def blankTileCount : Nat := 2

/-- Go `GetTileValue`: point value of a letter by map lookup, 0 when the rune
is absent from the distribution (blanks and anything outside A–Z). -/
def GetTileValue (letter : Char) : Int :=
  match standardTileDistribution.lookup letter with
  | some d => d.2
  | none => 0

/-- Go `NewTileBag`'s tile contents: one tile per letter and quantity, then the
two blanks (letter = zero rune, 0 points).  The Go constructor then shuffles;
the shuffle permutes the list, so multiset-level statements are unaffected. -/
def NewTileBagTiles : List Tile :=
  (standardTileDistribution.foldl
    (fun acc e => acc ++ List.replicate e.2.1 { letter := e.1, points := e.2.2, isBlank := false })
    [])
  ++ List.replicate blankTileCount { letter := Char.ofNat 0, points := 0, isBlank := true }

/-- Go `TileBag.DrawTiles`: on a bag whose tiles are the list `tiles` (end of
the list = top of the bag), return the drawn tiles and the remaining bag.
Mirrors the source: non-positive counts draw nothing; otherwise the count is
clamped to the available number and tiles come off the end of the slice. -/
def DrawTiles (tiles : List Tile) (count : Int) : List Tile × List Tile :=
  if count ≤ 0 then ([], tiles)
  else
    let available : Nat := tiles.length
    let c : Int := if (available : Int) < count then (available : Int) else count
    let k : Nat := available - c.toNat
    (tiles.drop k, tiles.take k)

/-- Go `MaxRackSize`. -/
def MaxRackSize : Nat := 7

/-- Go `Player.AddTilesToRack` on the rack component: adding no tiles is not an
error; otherwise fail if the rack would exceed `MaxRackSize`, else append. -/
def AddTilesToRack (rack tiles : List Tile) : Except (List Char) (List Tile) :=
  if tiles.length = 0 then .ok rack
  else if MaxRackSize < rack.length + tiles.length then .error [ 'c', 'a', 'p' ]
  else .ok (rack ++ tiles)

/-- Go `tilesEqual`: field-wise tile equality. -/
def tilesEqual (a b : Tile) : Bool :=
  a.letter == b.letter && a.points == b.points && a.isBlank == b.isBlank

/-- The inner loop of Go `Player.RemoveTilesByValue`: drop the first rack tile
equal to `tile`, or report that none was found. -/
def removeFirst (tile : Tile) : List Tile → Option (List Tile)
  | [] => none
  | r :: rest =>
    if tilesEqual r tile then some rest
    else (removeFirst tile rest).map (fun l => r :: l)

/-- The outer loop of Go `Player.RemoveTilesByValue`: remove each requested
tile in turn from the working copy of the rack. -/
def removeAllTiles : List Tile → List Tile → Except (List Char) (List Tile)
  | [], rack => .ok rack
  | t :: ts, rack =>
    match removeFirst t rack with
    | none => .error [ 'n', 'f' ]
    | some rack2 => removeAllTiles ts rack2

/-- Go `Player.RemoveTilesByValue` on the rack component: the Go method works
on a copy and assigns it back only after every removal succeeded, so on error
the player's rack is unchanged — here, no new rack is produced at all. -/
def RemoveTilesByValue (rack tiles : List Tile) : Except (List Char) (List Tile) :=
  if tiles.length = 0 then .ok rack
  else removeAllTiles tiles rack

/-- A mutation step on the board: one call to `PlaceTile` or `RemoveTile`,
keeping the post-state whether the call succeeded or failed. -/
inductive BoardOp where
  | place : Tile → Position → BoardOp
  | remove : Position → BoardOp

/-- The board left behind by one `PlaceTile`/`RemoveTile` call. -/
def applyOp (b : Board) : BoardOp → Board
  | .place t p => (b.PlaceTile t p).1
  | .remove p => (b.RemoveTile p).1

/-- The board left behind by a sequence of `PlaceTile`/`RemoveTile` calls. -/
def applyOps (b : Board) (ops : List BoardOp) : Board :=
  ops.foldl applyOp b

/-- Modelled from the spec: the Scorer component (`CalculateWordScore` and the
move total with the bingo bonus) is not present under the available sources —
only its design documents are.  A `PlacedTile` is a tile bound to a board
position, describing one newly placed tile of a move. -/
structure PlacedTile where
  tile : Tile
  pos : Position
deriving DecidableEq

/-- Modelled from the spec: one position of an extracted word as the Scorer
consumes it — the tile on it, the square's premium type, and whether the tile
was newly placed this turn. -/
structure WordTile where
  tile : Tile
  premium : PremiumType
  isNew : Bool
deriving DecidableEq

/-- Modelled from the spec: letter multiplier of a premium square (double or
triple letter; 1 otherwise). -/
def letterMultiplier : PremiumType → Int
  | .DoubleLetterScore => 2
  | .TripleLetterScore => 3
  | _ => 1

/-- Modelled from the spec: word multiplier of a premium square (double or
triple word; 1 otherwise). -/
def wordMultiplier : PremiumType → Int
  | .DoubleWordScore => 2
  | .TripleWordScore => 3
  | _ => 1

/-- Modelled from the spec: a tile's contribution before multipliers — blanks
contribute 0 regardless of the letter they represent. -/
def tileValue (t : Tile) : Int :=
  if t.isBlank then 0 else t.points

/-- Modelled from the spec: a word's score — the sum of tile values with letter
multipliers applied only on newly placed tiles, times the product of word
multipliers of the newly placed squares (1 by default). -/
def wordScore (w : List WordTile) : Int :=
  (w.map (fun e => tileValue e.tile * (if e.isNew then letterMultiplier e.premium else 1))).sum
  * (w.foldl (fun acc e => if e.isNew then acc * wordMultiplier e.premium else acc) 1)

/-- Modelled from the spec: the move total — the sum of all formed words'
scores, plus a flat 50-point bingo bonus when the move placed exactly 7
tiles. -/
def moveScore (words : List (List WordTile)) (placed : List PlacedTile) : Int :=
  (words.map wordScore).sum + (if placed.length = 7 then 50 else 0)

/-- A sample letter tile ('A', 1 point) used to instantiate theorems. -/
def tileA : Tile := { letter := 'A', points := 1, isBlank := false }

/-- A sample letter tile ('B', 3 points) used to instantiate theorems. -/
def tileB : Tile := { letter := 'B', points := 3, isBlank := false }

/-- C1: every board produced by `NewBoard` has the fixed premium layout —
8 triple-word, 17 double-word, 12 triple-letter and 24 double-letter squares
with the remaining 164 normal; the center is (7,7) with a double-word premium;
consequently `ValidateBoard` returns no error on a fresh board. -/
theorem newBoard_premium_layout :
    countPremium NewBoard .TripleWordScore = 8
    ∧ countPremium NewBoard .DoubleWordScore = 17
    ∧ countPremium NewBoard .TripleLetterScore = 12
    ∧ countPremium NewBoard .DoubleLetterScore = 24
    ∧ countPremium NewBoard .Normal = 164
    ∧ NewBoard.center = { row := 7, col := 7 }
    ∧ (NewBoard.grid NewBoard.center).premium = .DoubleWordScore
    ∧ NewBoard.ValidateBoard = none := by
  decide

/-- C2: for every in-bounds position, `Position.String` is the column letter
(`'A' + col`) followed by the decimal row number `row + 1`, and
`NewPositionFromString` parses that label back to exactly the same position;
every label `letter ++ digits` (letters A–Z, numbers below 100) denoting a
position outside the 15×15 grid is rejected. -/
theorem position_label_roundtrip :
    (∀ r, r < 15 → ∀ c, c < 15 →
      Position.String { row := Int.ofNat r, col := Int.ofNat c }
          = Char.ofNat (65 + c) :: decChars (r + 1)
        ∧ NewPositionFromString (Position.String { row := Int.ofNat r, col := Int.ofNat c })
          = .ok { row := Int.ofNat r, col := Int.ofNat c })
    ∧ (∀ k, k < 26 → ∀ n, n < 100 → (15 ≤ k ∨ n = 0 ∨ 16 ≤ n) →
      (NewPositionFromString (Char.ofNat (65 + k) :: decChars n)).isOk = false) := by
  decide

/-- Witness for C2: the center (7,7) prints as "H8" and parses back, and the
out-of-bounds label "A0" is rejected. -/
theorem position_label_roundtrip_witness :
    NewPositionFromString (Position.String { row := 7, col := 7 }) = .ok { row := 7, col := 7 }
    ∧ (NewPositionFromString (Char.ofNat 65 :: decChars 0)).isOk = false :=
  ⟨(position_label_roundtrip.1 7 (by decide) 7 (by decide)).2,
   position_label_roundtrip.2 0 (by decide) 0 (by decide) (by decide)⟩

/-- C3: `PlaceTile` errors exactly when the target is out of bounds or already
occupied; an erroring call leaves the board unchanged; a successful call makes
the target square occupied with the given tile (premium untouched) and leaves
every other square unchanged. -/
theorem placeTile_spec (b : Board) (t : Tile) (p : Position) :
    ((b.PlaceTile t p).2 = none ↔ (p.IsValid = true ∧ (b.grid p).occupied = false))
    ∧ ((b.PlaceTile t p).2 ≠ none → (b.PlaceTile t p).1 = b)
    ∧ ((b.PlaceTile t p).2 = none →
        (b.PlaceTile t p).1.grid p = { b.grid p with tile := some t, occupied := true }
        ∧ ∀ q, q ≠ p → (b.PlaceTile t p).1.grid q = b.grid q) := by
  by_cases hv : p.IsValid
  · by_cases ho : (b.grid p).occupied
    · simp [Board.PlaceTile, Board.IsValidPosition, hv, ho]
    · refine ⟨by simp [Board.PlaceTile, Board.IsValidPosition, hv, ho], ?_, ?_⟩
      · simp [Board.PlaceTile, Board.IsValidPosition, hv, ho]
      · intro _
        refine ⟨by simp [Board.PlaceTile, Board.IsValidPosition, hv, ho, updateSquare], ?_⟩
        intro q hq
        simp [Board.PlaceTile, Board.IsValidPosition, hv, ho, updateSquare, hq]
  · simp [Board.PlaceTile, Board.IsValidPosition, hv]

/-- Witness for C3: placing an A-tile on the empty corner square of a fresh
board succeeds, occupies that square with the tile, and leaves the center
square unchanged. -/
theorem placeTile_spec_witness :
    (NewBoard.PlaceTile { letter := 'A', points := 1, isBlank := false }
        { row := 0, col := 0 }).1.grid { row := 0, col := 0 }
      = { NewBoard.grid { row := 0, col := 0 } with
          tile := some { letter := 'A', points := 1, isBlank := false }, occupied := true }
    ∧ (NewBoard.PlaceTile { letter := 'A', points := 1, isBlank := false }
        { row := 0, col := 0 }).1.grid { row := 7, col := 7 }
      = NewBoard.grid { row := 7, col := 7 } :=
  ⟨((placeTile_spec NewBoard { letter := 'A', points := 1, isBlank := false }
      { row := 0, col := 0 }).2.2 (by decide)).1,
   ((placeTile_spec NewBoard { letter := 'A', points := 1, isBlank := false }
      { row := 0, col := 0 }).2.2 (by decide)).2 { row := 7, col := 7 } (by decide)⟩

/-- Each single `PlaceTile` or `RemoveTile` call, successful or failing, keeps
every square's premium type. -/
theorem premium_applyOp (b : Board) (op : BoardOp) (q : Position) :
    ((applyOp b op).grid q).premium = (b.grid q).premium := by
  cases op with
  | place t p =>
    by_cases hv : p.IsValid
    · by_cases ho : (b.grid p).occupied
      · simp [applyOp, Board.PlaceTile, Board.IsValidPosition, hv, ho]
      · simp only [applyOp, Board.PlaceTile, Board.IsValidPosition, hv, ho, Bool.not_true,
          Bool.false_eq_true, if_false, if_true, updateSquare]
        split <;> rfl
    · simp [applyOp, Board.PlaceTile, Board.IsValidPosition, hv]
  | remove p =>
    by_cases hv : p.IsValid
    · by_cases ho : (b.grid p).occupied
      · simp only [applyOp, Board.RemoveTile, Board.IsValidPosition, hv, ho, Bool.not_true,
          Bool.false_eq_true, if_false, if_true, updateSquare]
        split <;> rfl
      · simp [applyOp, Board.RemoveTile, Board.IsValidPosition, hv, ho]
    · simp [applyOp, Board.RemoveTile, Board.IsValidPosition, hv]

/-- C8: the premium type of every square is fixed at construction — any
sequence of `PlaceTile` and `RemoveTile` calls (successful or failing) leaves
the `premium` field of every square identical. -/
theorem premium_frame (b : Board) (ops : List BoardOp) (q : Position) :
    ((applyOps b ops).grid q).premium = (b.grid q).premium := by
  induction ops generalizing b with
  | nil => rfl
  | cons op rest ih =>
    calc ((applyOps b (op :: rest)).grid q).premium
        = ((applyOps (applyOp b op) rest).grid q).premium := rfl
      _ = ((applyOp b op).grid q).premium := ih (applyOp b op)
      _ = (b.grid q).premium := premium_applyOp b op q

/-- C10: every board read accessor is total — on any out-of-bounds position,
`GetTile` and `GetSquare` return `none`, `GetAdjacentPositions` returns `none`
(Go `nil`), `GetPremiumType` returns `Normal`, and `IsEmpty` and `HasTileAt`
return `false`. -/
theorem accessors_total (b : Board) (p : Position) (h : p.IsValid = false) :
    b.GetTile p = none ∧ b.GetSquare p = none ∧ b.GetAdjacentPositions p = none
    ∧ b.GetPremiumType p = .Normal ∧ b.IsEmpty p = false ∧ b.HasTileAt p = false := by
  simp [Board.GetTile, Board.GetSquare, Board.GetAdjacentPositions, Board.GetPremiumType,
    Board.IsEmpty, Board.HasTileAt, Board.IsValidPosition, h]

/-- Witness for C10: all six accessors on the out-of-bounds position (-1, 0) of
a fresh board. -/
theorem accessors_total_witness :
    NewBoard.GetTile { row := -1, col := 0 } = none
    ∧ NewBoard.GetSquare { row := -1, col := 0 } = none
    ∧ NewBoard.GetAdjacentPositions { row := -1, col := 0 } = none
    ∧ NewBoard.GetPremiumType { row := -1, col := 0 } = .Normal
    ∧ NewBoard.IsEmpty { row := -1, col := 0 } = false
    ∧ NewBoard.HasTileAt { row := -1, col := 0 } = false :=
  accessors_total NewBoard { row := -1, col := 0 } (by decide)

/-- C4: `DrawTiles` returns nothing on a non-positive count, exactly
`min count remaining` tiles on a positive count, and the bag shrinks by exactly
the number of tiles returned. -/
theorem drawTiles_spec (tiles : List Tile) (count : Int) :
    (count ≤ 0 → (DrawTiles tiles count).1 = [] ∧ (DrawTiles tiles count).2 = tiles)
    ∧ (0 < count → (DrawTiles tiles count).1.length = min count.toNat tiles.length)
    ∧ (DrawTiles tiles count).2.length + (DrawTiles tiles count).1.length = tiles.length := by
  by_cases h : count ≤ 0
  · refine ⟨fun _ => ⟨by simp [DrawTiles, h], by simp [DrawTiles, h]⟩,
      fun hc => absurd h (by omega), by simp [DrawTiles, h]⟩
  · refine ⟨fun hc => absurd hc h, ?_, ?_⟩ <;>
      by_cases hc : (tiles.length : Int) < count <;>
        simp only [DrawTiles, h, if_false, hc, if_true, List.length_drop, List.length_take] <;>
          omega

/-- Witness for C4: drawing 5 from a 2-tile bag yields min 5 2 = 2 tiles, and a
negative count draws nothing. -/
theorem drawTiles_spec_witness :
    (DrawTiles [tileA, tileB] 5).1.length = min (5 : Int).toNat [tileA, tileB].length
    ∧ (DrawTiles [tileA, tileB] (-1)).1 = [] :=
  ⟨(drawTiles_spec [tileA, tileB] 5).2.1 (by decide),
   ((drawTiles_spec [tileA, tileB] (-1)).1 (by decide)).1⟩

/-- C5: on a rack respecting its capacity invariant, `AddTilesToRack` errors
exactly when the rack size plus the number of added tiles exceeds 7, and on
success the rack grows by exactly the number of tiles added, never past 7. -/
theorem addTilesToRack_spec (rack tiles : List Tile) (h : rack.length ≤ MaxRackSize) :
    ((AddTilesToRack rack tiles).isOk = false ↔ MaxRackSize < rack.length + tiles.length)
    ∧ (∀ rack2, AddTilesToRack rack tiles = .ok rack2 →
        rack2.length = rack.length + tiles.length ∧ rack2.length ≤ MaxRackSize) := by
  simp only [MaxRackSize] at h ⊢
  by_cases ht : tiles.length = 0
  · obtain rfl : tiles = [] := List.length_eq_zero.mp ht
    refine ⟨?_, ?_⟩
    · simp [AddTilesToRack, Except.isOk, Except.toBool]
      omega
    · intro rack2 hok
      simp [AddTilesToRack] at hok
      subst hok
      simp
      omega
  · by_cases hcap : 7 < rack.length + tiles.length
    · refine ⟨?_, ?_⟩
      · simp [AddTilesToRack, MaxRackSize, ht, hcap, Except.isOk, Except.toBool]
      · intro rack2 hok
        simp [AddTilesToRack, MaxRackSize, ht, hcap] at hok
    · refine ⟨?_, ?_⟩
      · simp [AddTilesToRack, MaxRackSize, ht, hcap, Except.isOk, Except.toBool]
      · intro rack2 hok
        simp [AddTilesToRack, MaxRackSize, ht, hcap] at hok
        subst hok
        simp [List.length_append]
        omega

/-- Witness for C5: adding one tile to an empty rack succeeds and yields a
one-tile rack within capacity. -/
theorem addTilesToRack_spec_witness :
    ([tileA] : List Tile).length = ([] : List Tile).length + ([tileA] : List Tile).length
    ∧ ([tileA] : List Tile).length ≤ MaxRackSize :=
  (addTilesToRack_spec [] [tileA] (by decide)).2 [tileA] (by decide)

/-- `List.lookup` misses every key the predicate `c ≠ ·` covers. -/
theorem lookup_eq_none_of_forall_ne {β : Type} (l : List (Char × β)) (c : Char)
    (h : ∀ p ∈ l, c ≠ p.1) : l.lookup c = none := by
  induction l with
  | nil => rfl
  | cons a t ih =>
    have hne : (c == a.1) = false :=
      beq_eq_false_iff_ne.mpr (h a (List.mem_cons_self a t))
    cases a with
    | mk k v =>
      simp only [List.lookup, hne]
      exact ih (fun p hp => h p (List.mem_cons_of_mem _ hp))

/-- Every key of the tile distribution is a letter between A and Z. -/
theorem distribution_keys_range (c : Char) (hc : ¬('A' ≤ c ∧ c ≤ 'Z')) :
    ∀ p ∈ standardTileDistribution, c ≠ p.1 := by
  intro p hp
  fin_cases hp <;> (rintro rfl; exact hc (by decide))

/-- C7: the fresh tile bag contains exactly 2 blank tiles, every blank in it
carries 0 points, and `GetTileValue` returns 0 both on the blank marker (the
zero rune) and on any character outside A–Z. -/
theorem blank_tiles_zero_points :
    (NewTileBagTiles.filter (fun t => t.isBlank)).length = blankTileCount
    ∧ (∀ t ∈ NewTileBagTiles, t.isBlank = true → t.points = 0)
    ∧ GetTileValue (Char.ofNat 0) = 0
    ∧ (∀ c : Char, ¬('A' ≤ c ∧ c ≤ 'Z') → GetTileValue c = 0) := by
  refine ⟨by decide, by decide, by decide, ?_⟩
  intro c hc
  unfold GetTileValue
  rw [lookup_eq_none_of_forall_ne _ c (distribution_keys_range c hc)]

/-- Witness for C7: the digit character '0' lies outside A–Z and is valued 0. -/
theorem blank_tiles_zero_points_witness :
    GetTileValue (Char.ofNat 48) = 0 :=
  blank_tiles_zero_points.2.2.2 (Char.ofNat 48) (by decide)

/-- `tilesEqual` is exactly structural equality of tiles. -/
theorem tilesEqual_iff (a b : Tile) : tilesEqual a b = true ↔ a = b := by
  cases a
  cases b
  simp [tilesEqual, Tile.mk.injEq, and_assoc]

/-- `removeFirst` finds nothing exactly when the tile is absent. -/
theorem removeFirst_none (t : Tile) (l : List Tile) :
    removeFirst t l = none ↔ t ∉ l := by
  induction l with
  | nil => simp [removeFirst]
  | cons r rest ih =>
    by_cases h : tilesEqual r t
    · have hr : r = t := (tilesEqual_iff r t).mp h
      subst hr
      simp [removeFirst, h]
    · have hne : t ≠ r := fun he => h ((tilesEqual_iff r t).mpr he.symm)
      simp [removeFirst, h, Option.map_eq_none', ih, List.mem_cons, hne]

/-- A successful `removeFirst` removes exactly one occurrence: the input rack
is a permutation of the removed tile consed onto the output rack. -/
theorem removeFirst_perm (t : Tile) (l : List Tile) :
    ∀ l2, removeFirst t l = some l2 → l.Perm (t :: l2) := by
  induction l with
  | nil => intro l2 h; simp [removeFirst] at h
  | cons r rest ih =>
    intro l2 h
    by_cases he : tilesEqual r t
    · have hr : r = t := (tilesEqual_iff r t).mp he
      subst hr
      simp [removeFirst, he] at h
      subst h
      exact List.Perm.refl _
    · simp only [removeFirst, he, Bool.false_eq_true, if_false, Option.map_eq_some'] at h
      obtain ⟨a, ha, rfl⟩ := h
      exact ((ih a ha).cons r).trans (List.Perm.swap t r a)

/-- A successful `removeAllTiles` removes exactly one rack occurrence per
requested tile: the input rack is a permutation of requests plus leftover. -/
theorem removeAllTiles_ok_perm (ts : List Tile) :
    ∀ rack rack2, removeAllTiles ts rack = .ok rack2 → rack.Perm (ts ++ rack2) := by
  induction ts with
  | nil =>
    intro rack rack2 h
    simp [removeAllTiles] at h
    subst h
    exact List.Perm.refl _
  | cons t ts ih =>
    intro rack rack2 h
    cases hrf : removeFirst t rack with
    | none => rw [removeAllTiles, hrf] at h; exact absurd h (by simp)
    | some rack1 =>
      rw [removeAllTiles, hrf] at h
      exact (removeFirst_perm t rack rack1 hrf).trans ((ih rack1 rack2 h).cons t)

/-- `removeAllTiles` succeeds whenever every requested tile is present with
sufficient multiplicity. -/
theorem removeAllTiles_ok_of_counts (ts : List Tile) :
    ∀ rack, (∀ x, ts.count x ≤ rack.count x) → (removeAllTiles ts rack).isOk = true := by
  induction ts with
  | nil => intro rack _; rfl
  | cons t ts ih =>
    intro rack h
    have htm : t ∈ rack := by
      have hc := h t
      simp [List.count_cons_self] at hc
      exact List.count_pos_iff.mp (by omega)
    obtain ⟨rack1, hrf⟩ : ∃ r1, removeFirst t rack = some r1 := by
      cases hr : removeFirst t rack with
      | none => exact absurd ((removeFirst_none t rack).mp hr) (not_not_intro htm)
      | some r1 => exact ⟨r1, rfl⟩
    have hperm := removeFirst_perm t rack rack1 hrf
    have hcounts : ∀ x, ts.count x ≤ rack1.count x := by
      intro x
      have hc := h x
      rw [hperm.count_eq x] at hc
      by_cases hx : x = t
      · subst hx
        simp [List.count_cons] at hc
        omega
      · simp [List.count_cons, hx] at hc
        omega
    rw [removeAllTiles, hrf]
    exact ih rack1 hcounts

/-- C6: `RemoveTilesByValue` is all-or-nothing — it succeeds exactly when every
requested tile is present in the rack with sufficient multiplicity (otherwise
it errors and, the Go method only writing the rack back on success, leaves the
rack unchanged), and on success it removes exactly one matching rack tile per
requested tile, shrinking the rack by exactly the number of requests. -/
theorem removeTilesByValue_spec (rack tiles : List Tile) :
    ((RemoveTilesByValue rack tiles).isOk = true ↔ ∀ x, tiles.count x ≤ rack.count x)
    ∧ (∀ rack2, RemoveTilesByValue rack tiles = .ok rack2 →
        rack2.length + tiles.length = rack.length
        ∧ ∀ x, rack2.count x + tiles.count x = rack.count x) := by
  constructor
  · constructor
    · intro hok x
      by_cases ht : tiles.length = 0
      · obtain rfl : tiles = [] := List.length_eq_zero.mp ht
        simp
      · rw [RemoveTilesByValue, if_neg ht] at hok
        cases hres : removeAllTiles tiles rack with
        | error e => rw [hres] at hok; exact absurd hok (by simp [Except.isOk, Except.toBool])
        | ok rack2 =>
          have hperm := removeAllTiles_ok_perm tiles rack rack2 hres
          have hc := hperm.count_eq x
          rw [List.count_append] at hc
          omega
    · intro h
      by_cases ht : tiles.length = 0
      · simp [RemoveTilesByValue, ht, Except.isOk, Except.toBool]
      · rw [RemoveTilesByValue, if_neg ht]
        exact removeAllTiles_ok_of_counts tiles rack h
  · intro rack2 hok
    by_cases ht : tiles.length = 0
    · obtain rfl : tiles = [] := List.length_eq_zero.mp ht
      simp [RemoveTilesByValue] at hok
      subst hok
      simp
    · rw [RemoveTilesByValue, if_neg ht] at hok
      have hperm := removeAllTiles_ok_perm tiles rack rack2 hok
      constructor
      · have hl := hperm.length_eq
        rw [List.length_append] at hl
        omega
      · intro x
        have hc := hperm.count_eq x
        rw [List.count_append] at hc
        omega

/-- Witness for C6: removing an A-tile from the one-tile rack holding it
empties the rack, shrinking it by exactly one. -/
theorem removeTilesByValue_spec_witness :
    ([] : List Tile).length + ([tileA] : List Tile).length = ([tileA] : List Tile).length :=
  ((removeTilesByValue_spec [tileA] [tileA]).2 [] (by decide)).1

/-- C9: a move that places exactly 7 tiles scores the sum of all formed words'
scores plus a flat 50, independent of which or how many words were formed. -/
theorem bingo_bonus (words : List (List WordTile)) (placed : List PlacedTile)
    (h : placed.length = 7) :
    moveScore words placed = (words.map wordScore).sum + 50 := by
  simp [moveScore, h]

/-- Witness for C9: a 7-tile move forming no recorded words still scores
exactly 50. -/
theorem bingo_bonus_witness :
    moveScore []
      (List.replicate 7
        { tile := { letter := 'A', points := 1, isBlank := false },
          pos := { row := 7, col := 7 } }) = 50 := by
  simpa using
    bingo_bonus []
      (List.replicate 7
        { tile := { letter := 'A', points := 1, isBlank := false },
          pos := { row := 7, col := 7 } }) (by simp)

end Scrabble
